import Mathlib

/-!
Shallow embedding of the orchestration core of the auto-relocate pipeline
(TypeScript sources: `src/jobs/job.ts`, `src/tools/ytdlp.ts`, `src/pipeline.ts`,
`src/run_once.ts`, `src/nlp/translate.ts`, `src/subtitles/srt.ts`).

Modelling conventions:
* The on-disk job store (`workspace/jobs/{video_id}/job.json`) is an association
  list from video id to job record; `saveJob` is the upsert performed by writing
  the file, `jobExists`/`lookupJob` correspond to `jobExists`/`loadJob`.
* External collaborators (yt-dlp, ffmpeg, ASR, translation, delivery) are an
  environment of `Except`-valued outcomes, one per call site; a `.error` value
  models a thrown error / non-zero exit. The list of collaborator names invoked
  is returned alongside the result so that "stage X was never executed" is a
  statement about the embedding.
* Timestamps (`nowIso()`) are an opaque string threaded in; RSS `published_at`
  strings are modelled by their parsed epoch value (an integer), which is what
  the selector's comparator `new Date(x).getTime()` sorts by.
* JavaScript numbers in the subtitle code are modelled as rationals (the claims
  under consideration only involve values on which float arithmetic is exact).
-/

namespace AutoRelocate

/-! ### Item records (`src/jobs/job.ts`) -/

/-- `ArtifactsSchema`: all three keys optional (`.partial()`), each a
non-empty string when present. -/
structure Artifacts where
  final_output : Option String := none
  metadata : Option String := none
  thumbnail : Option String := none
deriving DecidableEq, Repr

/-- The persisted job record. `attempts` is an integer (the schema checks
`int().min(0)` at load time); `status` is a plain string, exactly as in
`JobSchema` (`z.string().min(1)`), not an enumeration. -/
structure Job where
  video_id : String
  channel_id : String
  source_url : String
  created_at : String
  updated_at : String
  status : String
  attempts : Int
  step : String
  last_error : Option String
  artifacts : Option Artifacts
deriving DecidableEq, Repr

/-- `z.string().min(1)`. -/
def minLen1 (s : String) : Bool := 1 ≤ s.length

/-- The checks of `ArtifactsSchema` (each present key must be non-empty). -/
def artifactsSchemaCheck (a : Artifacts) : Bool :=
  (match a.final_output with | some s => minLen1 s | none => true) &&
  (match a.metadata with | some s => minLen1 s | none => true) &&
  (match a.thumbnail with | some s => minLen1 s | none => true)

/-- The checks of `JobSchema` on a well-typed document: every required string
field non-empty, `attempts` a non-negative integer, artifact paths non-empty
when present. `last_error` is `nullable()` with no further constraint. -/
def jobSchemaCheck (j : Job) : Bool :=
  minLen1 j.video_id && minLen1 j.channel_id && minLen1 j.source_url &&
  minLen1 j.created_at && minLen1 j.updated_at && minLen1 j.status &&
  decide (0 ≤ j.attempts) && minLen1 j.step &&
  (match j.artifacts with | some a => artifactsSchemaCheck a | none => true)

/-- `loadJob(path)` = `JobSchema.parse(readJson(path))`: returns the document
unchanged when it validates, fails (here: `none`) otherwise. -/
def loadJob (doc : Job) : Option Job :=
  if jobSchemaCheck doc then some doc else none

/-- `createJob` from `src/jobs/job.ts`. -/
def createJob (videoId channelId sourceUrl now : String) : Job :=
  { video_id := videoId
    channel_id := channelId
    source_url := sourceUrl
    created_at := now
    updated_at := now
    status := "pending"
    attempts := 0
    step := "discovered"
    last_error := none
    artifacts := some {} }

/-! The four record transforms are imported by `src/pipeline.ts` from
`src/jobs/job.ts` but their definitions are not among the provided sources;
they are modelled from the spec (§4.1 Item Record Store). -/

/-- Modelled from the spec: `withStep(record, step, now)` — the source of
`updateStep` is missing from the provided `src/jobs/job.ts`; per §4.1/§3 it
sets `step` and bumps `updated_at`. -/
def updateStep (j : Job) (stepName now : String) : Job :=
  { j with step := stepName, updated_at := now }

/-- Modelled from the spec: `withAttemptFailure(record, errorMessage, now)` —
the source of `incrementAttempts` is missing from the provided
`src/jobs/job.ts`; per §4.1 it increments `attempts`, sets `last_error`, bumps
`updated_at`. -/
def incrementAttempts (j : Job) (errorMessage now : String) : Job :=
  { j with attempts := j.attempts + 1, last_error := some errorMessage, updated_at := now }

/-- Modelled from the spec: `withFailed(record, now)` — the source of
`markFailed` is missing from the provided `src/jobs/job.ts`; per §4.1/§3 it
moves `status` to `failed` and bumps `updated_at`. -/
def markFailed (j : Job) (now : String) : Job :=
  { j with status := "failed", updated_at := now }

/-- Modelled from the spec: `withSucceeded(record, finalStep, now)` — the
source of `markSucceeded` is missing from the provided `src/jobs/job.ts`; per
§4.1/§4.3 it moves `status` to `succeeded`, sets `step` to the terminal stage
name and bumps `updated_at` (`artifacts` are assigned separately by the caller
in `processSingleVideo`). -/
def markSucceeded (j : Job) (finalStep now : String) : Job :=
  { j with status := "succeeded", step := finalStep, updated_at := now }

/-! ### The job store (one `job.json` per video id) -/

abbrev JobStore := List (String × Job)

/-- Reading `workspace/jobs/{videoId}/job.json` if it exists. -/
def lookupJob (store : JobStore) (videoId : String) : Option Job :=
  match store with
  | [] => none
  | (k, j) :: rest => if k = videoId then some j else lookupJob rest videoId

/-- `jobExists(jobsDir, videoId)`: the record file exists. -/
def jobExists (store : JobStore) (videoId : String) : Bool :=
  (lookupJob store videoId).isSome

/-- `saveJob(targetPath, job)`: (over)write the record file — an upsert. -/
def saveJob (store : JobStore) (videoId : String) (j : Job) : JobStore :=
  match store with
  | [] => [(videoId, j)]
  | (k, v) :: rest =>
      if k = videoId then (videoId, j) :: rest else (k, v) :: saveJob rest videoId j

/-! ### Preflight (`src/tools/ytdlp.ts`) -/

/-- The normalized result of the yt-dlp preflight call (`normalizePreflight`).
`webpageUrl` is `info.webpage_url` when that is present. -/
structure PreflightResult where
  durationSeconds : Option Int
  isLive : Bool
  webpageUrl : Option String
  url : String
deriving DecidableEq, Repr

structure CheckResult where
  ok : Bool
  reason : Option String
deriving DecidableEq, Repr

/-- `url.includes(pat)`: some suffix of `s` starts with `pat`. -/
def includesSubstrAux (pat : List Char) : List Char → Bool
  | [] => pat.isEmpty
  | c :: rest => pat.isPrefixOf (c :: rest) || includesSubstrAux pat rest

def includesSubstr (s pat : String) : Bool :=
  includesSubstrAux pat.data s.data

/-- `preflightPasses` from `src/tools/ytdlp.ts`. -/
def preflightPasses (p : PreflightResult) (maxDurationSeconds : Int)
    (excludeShorts : Bool) : CheckResult :=
  if p.isLive then { ok := false, reason := some "live stream" }
  else
    match p.durationSeconds with
    | none => { ok := false, reason := some "missing duration" }
    | some d =>
        if maxDurationSeconds < d then
          { ok := false, reason := some ("duration " ++ toString d ++ "s exceeds limit") }
        else if excludeShorts && includesSubstr (p.webpageUrl.getD p.url) "/shorts/" then
          { ok := false, reason := some "shorts excluded" }
        else { ok := true, reason := none }

/-! ### The stage runner (`processSingleVideo` in `src/pipeline.ts`) -/

structure ProbeResult where
  hasVideo : Bool
  hasAudio : Bool
  durationSeconds : Int
deriving DecidableEq, Repr

structure DeliveryResult where
  videoPath : String
  metadataPath : String
  thumbnailPath : String
deriving DecidableEq, Repr

/-- `buildArtifacts` from `src/deliver/deliver.ts`. -/
def buildArtifacts (d : DeliveryResult) : Artifacts :=
  { final_output := some d.videoPath
    metadata := some d.metadataPath
    thumbnail := some d.thumbnailPath }

/-- The configuration fields the orchestration core reads (`src/config.ts`). -/
structure AppConfig where
  max_videos_per_run : Nat
  max_duration_seconds : Int
  retries_max : Int
deriving DecidableEq, Repr

/-- One outcome per external collaborator call site of `processSingleVideo`;
`.error msg` models a thrown error (tool failure, timeout, bad exit code). -/
structure StageEnv where
  preflight : Except String PreflightResult
  download : Except String Unit
  normalizeThumbnail : Except String String
  extractAudio : Except String Unit
  runAsr : Except String Unit
  runTranslation : Except String String
  burnSubtitles : Except String Unit
  normalizeLoudness : Except String Unit
  probeVideo : Except String ProbeResult
  runMetadataGeneration : Except String String
  deliverJob : Except String DeliveryResult
deriving Repr

structure ProcessResult where
  status : String
  reason : Option String
deriving DecidableEq, Repr

structure Candidate where
  videoId : String
  channelId : String
  sourceUrl : String
  publishedAt : Int
deriving DecidableEq, Repr

/-- Outcome of the `try` block of `processSingleVideo`: normal completion,
the early `return` on a preflight policy rejection, or a thrown error reaching
the top-level `catch`. Carries the current `job` variable, the store (records
are persisted before every stage) and the collaborator calls made. -/
inductive TryOutcome where
  | success (j : Job) (store : JobStore) (calls : List String)
  | policyReject (reason : Option String) (j : Job) (store : JobStore) (calls : List String)
  | thrown (msg : String) (j : Job) (store : JobStore) (calls : List String)
deriving DecidableEq, Repr

/-- The `try` block of `processSingleVideo` (steps 1–8 of `src/pipeline.ts`),
with the thumbnail stage's inner `try`/`catch` swallowing its outcome. -/
def tryBody (videoId : String) (config : AppConfig) (env : StageEnv) (now : String)
    (store0 : JobStore) (job0 : Job) : TryOutcome :=
  -- Step 1: preflight
  let job := updateStep job0 "preflight" now
  let store := saveJob store0 videoId job
  match env.preflight with
  | .error e => .thrown e job store ["preflight"]
  | .ok pre =>
    let check := preflightPasses pre config.max_duration_seconds true
    if check.ok = false then
      let job := incrementAttempts job ("preflight: " ++ check.reason.getD "undefined") now
      let job := markFailed job now
      let store := saveJob store videoId job
      .policyReject check.reason job store ["preflight"]
    else
      -- Step 2: download
      let job := updateStep job "download" now
      let store := saveJob store videoId job
      match env.download with
      | .error e => .thrown e job store ["preflight", "download"]
      | .ok _ =>
        -- Step 3: normalize thumbnail (failure swallowed, outcome unused)
        let job := updateStep job "thumbnail" now
        let store := saveJob store videoId job
        -- Step 4: ASR (audio extraction + speech recognition)
        let job := updateStep job "asr" now
        let store := saveJob store videoId job
        match env.extractAudio with
        | .error e =>
            .thrown e job store ["preflight", "download", "normalizeThumbnail", "extractAudio"]
        | .ok _ =>
          match env.runAsr with
          | .error e =>
              .thrown e job store
                ["preflight", "download", "normalizeThumbnail", "extractAudio", "runAsr"]
          | .ok _ =>
            -- Step 5: translate
            let job := updateStep job "translate" now
            let store := saveJob store videoId job
            match env.runTranslation with
            | .error e =>
                .thrown e job store
                  ["preflight", "download", "normalizeThumbnail", "extractAudio", "runAsr",
                   "runTranslation"]
            | .ok _ =>
              -- Step 6: render (burn subtitles + loudness + probe)
              let job := updateStep job "render" now
              let store := saveJob store videoId job
              match env.burnSubtitles with
              | .error e =>
                  .thrown e job store
                    ["preflight", "download", "normalizeThumbnail", "extractAudio", "runAsr",
                     "runTranslation", "burnSubtitles"]
              | .ok _ =>
                match env.normalizeLoudness with
                | .error e =>
                    .thrown e job store
                      ["preflight", "download", "normalizeThumbnail", "extractAudio", "runAsr",
                       "runTranslation", "burnSubtitles", "normalizeLoudness"]
                | .ok _ =>
                  match env.probeVideo with
                  | .error e =>
                      .thrown e job store
                        ["preflight", "download", "normalizeThumbnail", "extractAudio", "runAsr",
                         "runTranslation", "burnSubtitles", "normalizeLoudness", "probeVideo"]
                  | .ok probe =>
                    if !(probe.hasVideo && probe.hasAudio) then
                      .thrown
                        ("Output video missing streams: video=" ++ toString probe.hasVideo ++
                          ", audio=" ++ toString probe.hasAudio)
                        job store
                        ["preflight", "download", "normalizeThumbnail", "extractAudio", "runAsr",
                         "runTranslation", "burnSubtitles", "normalizeLoudness", "probeVideo"]
                    else
                      -- Step 7: package (metadata generation)
                      let job := updateStep job "package" now
                      let store := saveJob store videoId job
                      match env.runMetadataGeneration with
                      | .error e =>
                          .thrown e job store
                            ["preflight", "download", "normalizeThumbnail", "extractAudio",
                             "runAsr", "runTranslation", "burnSubtitles", "normalizeLoudness",
                             "probeVideo", "runMetadataGeneration"]
                      | .ok _ =>
                        -- Step 8: deliver
                        let job := updateStep job "deliver" now
                        let store := saveJob store videoId job
                        match env.deliverJob with
                        | .error e =>
                            .thrown e job store
                              ["preflight", "download", "normalizeThumbnail", "extractAudio",
                               "runAsr", "runTranslation", "burnSubtitles", "normalizeLoudness",
                               "probeVideo", "runMetadataGeneration", "deliverJob"]
                        | .ok d =>
                          let job := { job with artifacts := some (buildArtifacts d) }
                          let job := markSucceeded job "deliver" now
                          let store := saveJob store videoId job
                          .success job store
                            ["preflight", "download", "normalizeThumbnail", "extractAudio",
                             "runAsr", "runTranslation", "burnSubtitles", "normalizeLoudness",
                             "probeVideo", "runMetadataGeneration", "deliverJob"]

/-- `processSingleVideo` from `src/pipeline.ts`: the existence/terminal-status
skip check, job creation for fresh ids, the `try` body and the top-level
`catch` with retry bookkeeping. Returns (result, final store, collaborator
calls made). -/
def processSingleVideo (candidate : Candidate) (config : AppConfig) (env : StageEnv)
    (now : String) (store : JobStore) : ProcessResult × JobStore × List String :=
  let videoId := candidate.videoId
  let runStages : JobStore → Job → ProcessResult × JobStore × List String :=
    fun store0 job0 =>
      match tryBody videoId config env now store0 job0 with
      | .success _ store calls =>
          ({ status := "succeeded", reason := none }, store, calls)
      | .policyReject r _ store calls =>
          ({ status := "failed", reason := r }, store, calls)
      | .thrown msg j store calls =>
          let j := incrementAttempts j msg now
          let j := if config.retries_max ≤ j.attempts then markFailed j now else j
          ({ status := "failed", reason := some msg }, saveJob store videoId j, calls)
  match lookupJob store videoId with
  | some job =>
      if job.status = "succeeded" then
        ({ status := "skipped", reason := some "already succeeded" }, store, [])
      else if job.status = "failed" then
        ({ status := "skipped", reason := some "already failed (max retries)" }, store, [])
      else runStages store job
  | none =>
      let job := createJob videoId candidate.channelId candidate.sourceUrl now
      runStages (saveJob store videoId job) job

/-! ### The candidate selector and the run coordinator
(`fetchAndFilterCandidates` in `src/pipeline.ts`, `runOnce` in `src/run_once.ts`) -/

/-- One RSS entry (`src/youtube/rss.ts`); `published_at` is modelled by the
epoch value the selector's comparator extracts from it. -/
structure FeedEntry where
  video_id : String
  channel_id : String
  source_url : String
  published_at : Int
deriving DecidableEq, Repr

/-- The selector's sort order: `(a, b) => dateB - dateA`, i.e. newest first. -/
def feedGE (a b : FeedEntry) : Prop := b.published_at ≤ a.published_at

instance : DecidableRel feedGE := fun a b => Int.decLe _ _

instance : IsTotal FeedEntry feedGE := ⟨fun a b => le_total b.published_at a.published_at⟩

instance : IsTrans FeedEntry feedGE := ⟨fun _ _ _ h h' => le_trans h' h⟩

/-- The per-channel fetch loop: entries of channels whose resolve+fetch
succeeded are appended in channel order, a failed channel is logged and
skipped. -/
def mergedEntries (feeds : List (Except String (List FeedEntry))) : List FeedEntry :=
  feeds.foldl (fun acc f => match f with | .ok es => acc ++ es | .error _ => acc) []

def toCandidate (e : FeedEntry) : Candidate :=
  { videoId := e.video_id, channelId := e.channel_id,
    sourceUrl := e.source_url, publishedAt := e.published_at }

/-- The selection loop of `fetchAndFilterCandidates`: stop once the batch is
full, skip entries whose id already has a record, push the rest. -/
def selectLoop (store : JobStore) (maxPerRun : Nat) (acc : List Candidate) :
    List FeedEntry → List Candidate
  | [] => acc
  | e :: rest =>
      if maxPerRun ≤ acc.length then acc
      else if jobExists store e.video_id then selectLoop store maxPerRun acc rest
      else selectLoop store maxPerRun (acc ++ [toCandidate e]) rest

/-- `fetchAndFilterCandidates` from `src/pipeline.ts`: merge per-channel
entries, sort by `published_at` descending (ECMAScript `Array.prototype.sort`
is stable; `List.insertionSort` with the same comparator is the stable sort of
the embedding), then filter and truncate. -/
def fetchAndFilterCandidates (config : AppConfig)
    (feeds : List (Except String (List FeedEntry))) (store : JobStore) : List Candidate :=
  let allEntries := mergedEntries feeds
  let sorted := List.insertionSort feedGE allEntries
  selectLoop store config.max_videos_per_run [] sorted

/-- The per-candidate loop of `runOnce` (`src/run_once.ts`): invoke
`processSingleVideo` strictly in selector order, threading the store, tallying
`(succeeded, failed, skipped)` and recording the ids processed. -/
def runLoop (config : AppConfig) (envs : Nat → StageEnv) (now : String) :
    List Candidate → JobStore → Nat → JobStore × List String × (Nat × Nat × Nat)
  | [], store, _ => (store, [], (0, 0, 0))
  | c :: rest, store, i =>
      let r := processSingleVideo c config (envs i) now store
      let next := runLoop config envs now rest r.2.1 (i + 1)
      let counts :=
        if r.1.status = "succeeded" then (next.2.2.1 + 1, next.2.2.2.1, next.2.2.2.2)
        else if r.1.status = "failed" then (next.2.2.1, next.2.2.2.1 + 1, next.2.2.2.2)
        else (next.2.2.1, next.2.2.2.1, next.2.2.2.2 + 1)
      (next.1, c.videoId :: next.2.1, counts)

/-- `runOnce` from `src/run_once.ts`: one selector invocation, then the
stage runner once per candidate. `envs i` is the collaborator environment seen
by the `i`-th invocation. Returns (final store, ids the Stage Runner was
invoked for in order, summary counts). -/
def runOnce (config : AppConfig) (feeds : List (Except String (List FeedEntry)))
    (envs : Nat → StageEnv) (now : String) (store : JobStore) :
    JobStore × List String × (Nat × Nat × Nat) :=
  let candidates := fetchAndFilterCandidates config feeds store
  runLoop config envs now candidates store 0

/-! ### Display post-processing (`postProcessText` in `src/nlp/translate.ts`) -/

/-- The CJK test `/[一-鿿぀-ゟ゠-ヿ]/.test(text)`. -/
def isCJKChar (c : Char) : Bool :=
  (0x4e00 ≤ c.toNat && c.toNat ≤ 0x9fff) ||
  (0x3040 ≤ c.toNat && c.toNat ≤ 0x309f) ||
  (0x30a0 ≤ c.toNat && c.toNat ≤ 0x30ff)

/-- `String.prototype.trim`: strip leading and trailing whitespace. -/
def jsTrim (s : String) : String :=
  String.mk (((s.data.dropWhile Char.isWhitespace).reverse.dropWhile Char.isWhitespace).reverse)

/-- Splitting a string at every occurrence of a separator character
(JavaScript `split(sep)`; adjacent separators yield empty pieces). -/
def charSplitAux (sep : Char) : List Char → List Char → List String
  | [], cur => [String.mk cur.reverse]
  | c :: rest, cur =>
      if c = sep then String.mk cur.reverse :: charSplitAux sep rest []
      else charSplitAux sep rest (c :: cur)

def charSplit (s : String) (sep : Char) : List String :=
  charSplitAux sep s.data []

/-- Splitting at every whitespace character (for `text.split(/\s+/)`). -/
def splitWsAux : List Char → List Char → List String
  | [], cur => [String.mk cur.reverse]
  | c :: rest, cur =>
      if c.isWhitespace then String.mk cur.reverse :: splitWsAux rest []
      else splitWsAux rest (c :: cur)

/-- `text.split(/\s+/)` on trimmed text (a `\s+` run is one separator, so on
trimmed input the pieces are exactly the non-empty maximal words). -/
def wordsOf (text : String) : List String :=
  (splitWsAux text.data []).filter (fun w => w ≠ "")

/-- The CJK branch: pack characters, starting a new line once the current one
has reached `maxCharsPerLine` characters. -/
def cjkSplit (maxCharsPerLine : Nat) : List Char → String → List String → List String
  | [], currentLine, acc => if currentLine ≠ "" then acc ++ [currentLine] else acc
  | c :: cs, currentLine, acc =>
      if maxCharsPerLine ≤ currentLine.length then
        cjkSplit maxCharsPerLine cs (String.singleton c) (acc ++ [currentLine])
      else cjkSplit maxCharsPerLine cs (currentLine.push c) acc

/-- The word-wrap branch: greedily extend the current line word by word,
breaking before a word that would push a non-empty line past the limit. -/
def wordWrap (maxCharsPerLine : Nat) : List String → String → List String → List String
  | [], currentLine, acc => if currentLine ≠ "" then acc ++ [currentLine] else acc
  | w :: ws, currentLine, acc =>
      let testLine := if currentLine ≠ "" then currentLine ++ " " ++ w else w
      if maxCharsPerLine < testLine.length ∧ currentLine ≠ "" then
        wordWrap maxCharsPerLine ws w (acc ++ [currentLine])
      else wordWrap maxCharsPerLine ws testLine acc

/-- `postProcessText` from `src/nlp/translate.ts`. -/
def postProcessText (text : String) (maxCharsPerLine : Nat := 18)
    (maxLines : Nat := 2) : String :=
  let text := jsTrim text
  if text.length ≤ maxCharsPerLine then text
  else
    let isCJK := text.data.any isCJKChar
    let lines :=
      if isCJK then cjkSplit maxCharsPerLine text.data "" []
      else wordWrap maxCharsPerLine (wordsOf text) "" []
    let lines :=
      if maxLines < lines.length then
        let kept := lines.take maxLines
        let lastLine := kept.getD (maxLines - 1) ""
        if maxCharsPerLine - 3 < lastLine.length then
          kept.set (maxLines - 1) (lastLine.take (maxCharsPerLine - 3) ++ "...")
        else kept
      else lines
    String.intercalate "\n" lines

/-! ### Subtitles (`src/subtitles/srt.ts`) -/

structure Segment where
  start : Rat
  end_ : Rat
  text : String
deriving DecidableEq, Repr

/-- JavaScript `%` on the non-negative numbers used here. -/
def jsMod (a b : Rat) : Rat := a - b * ((a / b).floor : Int)

/-- `String.prototype.padStart`. -/
def padStart (s : String) (len : Nat) (c : Char) : String :=
  if s.length < len then String.mk (List.replicate (len - s.length) c) ++ s else s

/-- `formatTimestamp` from `src/subtitles/srt.ts`: seconds → `HH:MM:SS,mmm`. -/
def formatTimestamp (seconds : Rat) : String :=
  let hours := (seconds / 3600).floor
  let minutes := (jsMod seconds 3600 / 60).floor
  let secs := (jsMod seconds 60).floor
  let millis := (jsMod seconds 1 * 1000).floor
  padStart (toString hours) 2 '0' ++ ":" ++ padStart (toString minutes) 2 '0' ++ ":" ++
    padStart (toString secs) 2 '0' ++ "," ++ padStart (toString millis) 3 '0'

/-- The body of the `segmentsToSrt` loop, producing the four lines per entry
(`i` is the zero-based position). -/
def segmentLines : Nat → List Segment → List String
  | _, [] => []
  | i, seg :: rest =>
      toString (i + 1) ::
      (formatTimestamp seg.start ++ " --> " ++ formatTimestamp seg.end_) ::
      jsTrim seg.text :: "" :: segmentLines (i + 1) rest

/-- `segmentsToSrt` from `src/subtitles/srt.ts`. -/
def segmentsToSrt (segments : List Segment) : String :=
  String.intercalate "\n" (segmentLines 0 segments)

/-- `content.split(/\n\n+/)`: split at every run of two or more newlines.
`cur` is the current block accumulated in reverse, `pending` counts newlines
seen but not yet committed (a run of ≥ 2 is a separator, a single one is
block content). -/
def splitBlocksAux : List Char → List Char → Nat → List String → List String
  | [], cur, pending, acc =>
      if 2 ≤ pending then acc ++ [String.mk cur.reverse, ""]
      else if pending = 1 then acc ++ [String.mk ('\n' :: cur).reverse]
      else acc ++ [String.mk cur.reverse]
  | c :: rest, cur, pending, acc =>
      if c = '\n' then splitBlocksAux rest cur (pending + 1) acc
      else if 2 ≤ pending then splitBlocksAux rest [c] 0 (acc ++ [String.mk cur.reverse])
      else if pending = 1 then splitBlocksAux rest (c :: '\n' :: cur) 0 acc
      else splitBlocksAux rest (c :: cur) 0 acc

def splitBlocks (cs : List Char) : List String :=
  splitBlocksAux cs [] 0 []

/-- Matching `\d{2}:\d{2}:\d{2},\d{3}` at the head of the character list,
returning `(hours, minutes, seconds, millis)` and the remainder. -/
def matchTime : List Char → Option ((Nat × Nat × Nat × Nat) × List Char)
  | a :: b :: ':' :: c :: d :: ':' :: e :: f :: ',' :: g :: h :: i :: rest =>
      if [a, b, c, d, e, f, g, h, i].all Char.isDigit then
        some ((10 * (a.toNat - 48) + (b.toNat - 48),
               10 * (c.toNat - 48) + (d.toNat - 48),
               10 * (e.toNat - 48) + (f.toNat - 48),
               100 * (g.toNat - 48) + 10 * (h.toNat - 48) + (i.toNat - 48)), rest)
      else none
  | _ => none

/-- Matching `\s*-->\s*` at the head of the character list. -/
def matchArrow (cs : List Char) : Option (List Char) :=
  match cs.dropWhile (fun c => c.isWhitespace) with
  | '-' :: '-' :: '>' :: rest => some (rest.dropWhile (fun c => c.isWhitespace))
  | _ => none

/-- Matching the whole timestamp pattern at the head of the character list. -/
def matchTimestampsHere (cs : List Char) :
    Option ((Nat × Nat × Nat × Nat) × (Nat × Nat × Nat × Nat)) :=
  match matchTime cs with
  | none => none
  | some (t1, rest) =>
      match matchArrow rest with
      | none => none
      | some rest2 =>
          match matchTime rest2 with
          | none => none
          | some (t2, _) => some (t1, t2)

/-- The unanchored `String.prototype.match` search for the timestamp regex. -/
def searchTimestamps : List Char → Option ((Nat × Nat × Nat × Nat) × (Nat × Nat × Nat × Nat))
  | [] => none
  | c :: rest =>
      match matchTimestampsHere (c :: rest) with
      | some r => some r
      | none => searchTimestamps rest

def timeToSeconds (t : Nat × Nat × Nat × Nat) : Rat :=
  (t.1 * 3600 + t.2.1 * 60 + t.2.2.1 : Nat) + (t.2.2.2 : Rat) / 1000

/-- `parseSrt` from `src/subtitles/srt.ts`. -/
def parseSrt (content : String) : List Segment :=
  let blocks := splitBlocks (jsTrim content).data
  blocks.foldl
    (fun acc block =>
      let lines := charSplit block '\n'
      if lines.length < 3 then acc
      else
        match searchTimestamps ((lines.drop 1).headD "").data with
        | none => acc
        | some (t1, t2) =>
            acc ++ [{ start := timeToSeconds t1, end_ := timeToSeconds t2,
                      text := jsTrim (String.intercalate "\n" (lines.drop 2)) }])
    []

/-! ### Concrete instances used by several theorems -/

/-- An otherwise-ok collaborator environment. -/
def envOk : StageEnv :=
  { preflight := .ok ⟨some 100, false, none, "https://example.com/watch?v=x"⟩
    download := .ok ()
    normalizeThumbnail := .ok "thumb.jpg"
    extractAudio := .ok ()
    runAsr := .ok ()
    runTranslation := .ok "translated.srt"
    burnSubtitles := .ok ()
    normalizeLoudness := .ok ()
    probeVideo := .ok ⟨true, true, 100⟩
    runMetadataGeneration := .ok "metadata.json"
    deliverJob := .ok ⟨"v.mp4", "m.json", "t.jpg"⟩ }

def cfg2 : AppConfig := ⟨2, 300, 3⟩

def candX : Candidate := ⟨"x", "chX", "https://example.com/watch?v=x", 0⟩

/-! ### Store and stage-runner helper lemmas -/

theorem lookupJob_saveJob_self (store : JobStore) (videoId : String) (j : Job) :
    lookupJob (saveJob store videoId j) videoId = some j := by
  induction store with
  | nil => simp [saveJob, lookupJob]
  | cons kv rest ih =>
      obtain ⟨k, v⟩ := kv
      by_cases hk : k = videoId
      · simp [saveJob, hk, lookupJob]
      · simp [saveJob, hk, lookupJob, ih]

/-- The `try` block never touches `attempts`, `status` or `last_error` before a
throw: every `.thrown` exit carries a job that differs from the entry job only
in `step`/`updated_at`, and its call list starts with the preflight stage. -/
theorem tryBody_thrown_inv (videoId : String) (config : AppConfig) (env : StageEnv)
    (now : String) (store0 : JobStore) (job0 : Job) (msg : String) (j : Job)
    (st : JobStore) (calls : List String)
    (h : tryBody videoId config env now store0 job0 = .thrown msg j st calls) :
    j.attempts = job0.attempts ∧ j.status = job0.status ∧ j.last_error = job0.last_error := by
  unfold tryBody at h
  repeat' (first | (split at h) | (dsimp only at h))
  all_goals first
    | (injection h with h1 h2 h3 h4
       subst h2
       simp [updateStep, incrementAttempts, markFailed, markSucceeded])
    | cases h

/-- The job, store and collaborator-call components of a `try` block outcome. -/
def jobOf : TryOutcome → Job
  | .success j _ _ => j
  | .policyReject _ j _ _ => j
  | .thrown _ j _ _ => j

def storeOf : TryOutcome → JobStore
  | .success _ store _ => store
  | .policyReject _ _ store _ => store
  | .thrown _ _ store _ => store

def callsOf : TryOutcome → List String
  | .success _ _ calls => calls
  | .policyReject _ _ _ calls => calls
  | .thrown _ _ _ calls => calls

/-- Whatever the environment, the `try` block's recorded call list starts with
the preflight collaborator: processing always restarts at stage 1. -/
theorem tryBody_calls_head (videoId : String) (config : AppConfig) (env : StageEnv)
    (now : String) (store0 : JobStore) (job0 : Job) :
    (callsOf (tryBody videoId config env now store0 job0)).head? = some "preflight" := by
  unfold tryBody
  repeat' (first | split | (dsimp only))
  all_goals rfl

/-! ### C1 -/

/-- C1: once a record's status is terminal (`succeeded` or `failed`), every
later `processSingleVideo` invocation for that id returns `skipped` with the
matching reason, leaves the store untouched (so no transition leaves the
terminal state) and invokes no external stage at all. -/
theorem processSingleVideo_skips_terminal (cand : Candidate) (config : AppConfig)
    (env : StageEnv) (now : String) (store : JobStore) (j : Job)
    (hload : lookupJob store cand.videoId = some j)
    (hterm : j.status = "succeeded" ∨ j.status = "failed") :
    processSingleVideo cand config env now store =
      ({ status := "skipped",
         reason := some (if j.status = "succeeded" then "already succeeded"
                         else "already failed (max retries)") }, store, []) := by
  unfold processSingleVideo
  dsimp only
  rw [hload]
  rcases hterm with h | h <;> simp [h]

def jobDoneX : Job := { createJob "x" "chX" "u" "t0" with status := "succeeded" }

theorem processSingleVideo_skips_terminal_witness :
    (lookupJob [("x", jobDoneX)] candX.videoId = some jobDoneX ∧
      (jobDoneX.status = "succeeded" ∨ jobDoneX.status = "failed")) ∧
    processSingleVideo candX cfg2 envOk "t1" [("x", jobDoneX)] =
      ({ status := "skipped",
         reason := some (if jobDoneX.status = "succeeded" then "already succeeded"
                         else "already failed (max retries)") }, [("x", jobDoneX)], []) :=
  ⟨⟨by decide, Or.inl (by decide)⟩,
    processSingleVideo_skips_terminal candX cfg2 envOk "t1" [("x", jobDoneX)] jobDoneX
      (by decide) (Or.inl (by decide))⟩

/-! ### C8 -/

unseal Rat.add Rat.mul Rat.inv Rat.sub in
/-- C8: subtitle round-trip for `[{start: 0, end: 1.5, text: "hi"}]` —
formatting with `segmentsToSrt` and re-parsing with `parseSrt` reproduces the
segment exactly (so `start`/`end` differ by `0 < 1ms` and `text` is equal). -/
theorem srt_round_trip :
    parseSrt (segmentsToSrt [{ start := 0, end_ := 3 / 2, text := "hi" }]) =
      [{ start := 0, end_ := 3 / 2, text := "hi" }] := by decide

/-! ### C10 -/

def dupA : FeedEntry := ⟨"dup", "chA", "https://example.com/watch?v=dup", 5⟩
def dupB : FeedEntry := ⟨"dup", "chB", "https://example.com/watch?v=dup2", 4⟩

/-- C10: the selector does not deduplicate within a run — two source listings
each carrying an entry with item id `"dup"` (no record on disk) yield a
candidate list containing `"dup"` twice, and `runOnce` invokes the stage
runner twice for it in the same run. -/
theorem selector_duplicates_within_run :
    (fetchAndFilterCandidates cfg2 [.ok [dupA], .ok [dupB]] []).map Candidate.videoId =
      ["dup", "dup"] ∧
    (runOnce cfg2 [.ok [dupA], .ok [dupB]] (fun _ => envOk) "t0" []).2.1 =
      ["dup", "dup"] := by decide

/-! ### C2 (counterexample) -/

def pendingJobV1 : Job := createJob "v1" "c1" "https://example.com/watch?v=v1" "t0"

/-- C2 counterexample: with a `pending` record for `"v1"` on disk and `"v1"`
present in the fetched listings, the next `runOnce` invokes the Stage Runner
for no id at all — there is no direct-lookup path; the selector excludes the
id because a record exists, so the claimed re-processing does not happen. -/
theorem runOnce_pending_not_invoked_cex :
    lookupJob [("v1", pendingJobV1)] "v1" = some pendingJobV1 ∧
    pendingJobV1.status = "pending" ∧
    (runOnce cfg2 [.ok [⟨"v1", "c1", "https://example.com/watch?v=v1", 7⟩]]
        (fun _ => envOk) "t1" [("v1", pendingJobV1)]).2.1 = [] := by decide

/-! ### C6 -/

theorem minLen1_of_ne {s : String} (hs : s ≠ "") : minLen1 s = true := by
  obtain ⟨l⟩ := s
  cases l with
  | nil => exact absurd rfl hs
  | cons c cs => simp [minLen1, String.length]

def alienStatusDoc : Job :=
  { video_id := "v1", channel_id := "c1", source_url := "u1", created_at := "t0",
    updated_at := "t0", status := "bogus", attempts := 0, step := "discovered",
    last_error := none, artifacts := none }

/-- C6 counterexample: a persisted document whose `status` is outside
{pending, succeeded, failed} — which therefore does not satisfy the Item
Record shape of §3 — is accepted by `loadJob` unchanged: `JobSchema` only
checks `z.string().min(1)` for `status`. -/
theorem loadJob_accepts_alien_status_cex :
    loadJob alienStatusDoc = some alienStatusDoc ∧
    alienStatusDoc.status ≠ "pending" ∧
    alienStatusDoc.status ≠ "succeeded" ∧
    alienStatusDoc.status ≠ "failed" := by decide

/-- C6 amended: `loadJob` fails exactly on documents violating the
implemented shape and never repairs or defaults a record it accepts — it
returns the document unchanged, rejects an empty `status`, and is otherwise
insensitive to the `status` value (any non-empty string validates the same as
`"pending"`), so statuses outside the §3 enumeration are not rejected. -/
theorem loadJob_shape_only :
    (∀ d j, loadJob d = some j → j = d) ∧
    (∀ d : Job, loadJob { d with status := "" } = none) ∧
    (∀ (d : Job) (s : String), s ≠ "" →
      ((loadJob { d with status := s }).isSome ↔
        (loadJob { d with status := "pending" }).isSome)) := by
  refine ⟨fun d j h => ?_, fun d => ?_, fun d s hs => ?_⟩
  · unfold loadJob at h
    split at h
    · exact (Option.some.injEq _ _ ▸ h).symm
    · cases h
  · have h0 : minLen1 "" = false := by decide
    simp [loadJob, jobSchemaCheck, h0]
  · have hs1 : minLen1 s = true := minLen1_of_ne hs
    have hp : minLen1 "pending" = true := by decide
    simp [loadJob, jobSchemaCheck, hs1, hp]

theorem loadJob_shape_only_witness :
    ("bogus" ≠ "" ∧
      ((loadJob { alienStatusDoc with status := "bogus" }).isSome ↔
        (loadJob { alienStatusDoc with status := "pending" }).isSome)) ∧
    (loadJob { alienStatusDoc with status := "" } = none) :=
  ⟨⟨by decide, loadJob_shape_only.2.2 alienStatusDoc "bogus" (by decide)⟩,
    loadJob_shape_only.2.1 alienStatusDoc⟩

/-! ### C7 -/

/-- C7 counterexample: (i) `" hi "` has length `4 ≤ 18` but is returned
trimmed, not unchanged; (ii) an input that word-wraps to 3 lines (more than
`maxLines = 2`) is truncated to 2 lines with no trailing ellipsis marker,
because the last kept line is not longer than `maxCharsPerLine - 3`. -/
theorem postProcessText_cex :
    (" hi ".length ≤ 18 ∧ postProcessText " hi " 18 2 ≠ " hi ") ∧
    ((wordWrap 18 (wordsOf (jsTrim "aaaa bbbb cccc dddd eeee ffff gggg hhhh")) "" []).length
        = 3 ∧
      postProcessText "aaaa bbbb cccc dddd eeee ffff gggg hhhh" 18 2 =
        "aaaa bbbb cccc\ndddd eeee ffff") := by decide

/-- C7 amended: `postProcessText` returns the *trimmed* text unchanged
whenever the trimmed length is at most `maxCharsPerLine`; an input wrapping to
more than `maxLines` lines is truncated to exactly `maxLines` lines, and the
trailing ellipsis marker is placed on the last permitted line only when that
line is longer than `maxCharsPerLine - 3` characters (replacing its tail), as
in the second conjunct's 3-line input whose last kept line has 17 > 15
characters. -/
theorem postProcessText_amended :
    (∀ (text : String) (maxC maxL : Nat),
        (jsTrim text).length ≤ maxC → postProcessText text maxC maxL = jsTrim text) ∧
    ((wordWrap 18 (wordsOf (jsTrim "aaaaaaaa bbbbbbbb cccccccc dddddddd eeeeeeee")) "" []).length
        = 3 ∧
      postProcessText "aaaaaaaa bbbbbbbb cccccccc dddddddd eeeeeeee" 18 2 =
        "aaaaaaaa bbbbbbbb\ncccccccc dddddd...") := by
  refine ⟨fun text maxC maxL h => ?_, by decide⟩
  simp [postProcessText, h]

theorem postProcessText_amended_witness :
    ((jsTrim " hi ").length ≤ 18) ∧ postProcessText " hi " 18 2 = jsTrim " hi " :=
  ⟨by decide, postProcessText_amended.1 " hi " 18 2 (by decide)⟩

/-! ### C4 -/

/-- C4: an item with no existing record whose preflight check fails policy
(the reasons produced by `preflightPasses`: live broadcast, missing duration,
duration above the ceiling, shorts-excluded URL) is failed immediately: the
download stage is never invoked (the call list is exactly `["preflight"]`),
and the record goes from absent directly to `status = "failed"` with
`attempts = 1` and the prefixed failure reason, for every value of
`retries_max`. -/
theorem policy_rejection_immediate_failure
    (cand : Candidate) (config : AppConfig) (env : StageEnv) (now : String)
    (store : JobStore) (pre : PreflightResult) (rsn : String)
    (habsent : lookupJob store cand.videoId = none)
    (hpre : env.preflight = .ok pre)
    (hcheck : preflightPasses pre config.max_duration_seconds true =
      { ok := false, reason := some rsn }) :
    (processSingleVideo cand config env now store).1 =
      { status := "failed", reason := some rsn } ∧
    (processSingleVideo cand config env now store).2.2 = ["preflight"] ∧
    "download" ∉ (processSingleVideo cand config env now store).2.2 ∧
    ∃ r, lookupJob (processSingleVideo cand config env now store).2.1 cand.videoId = some r ∧
      r.status = "failed" ∧ r.attempts = 1 ∧
      r.last_error = some ("preflight: " ++ rsn) := by
  unfold processSingleVideo tryBody
  dsimp only
  rw [habsent, hpre]
  dsimp only
  rw [hcheck]
  simp [lookupJob_saveJob_self, markFailed, incrementAttempts, updateStep, createJob]

def livePre : PreflightResult := ⟨some 100, true, none, "https://example.com/watch?v=x"⟩

theorem policy_rejection_immediate_failure_witness :
    (lookupJob [] candX.videoId = none ∧
      StageEnv.preflight { envOk with preflight := .ok livePre } = .ok livePre ∧
      preflightPasses livePre cfg2.max_duration_seconds true =
        { ok := false, reason := some "live stream" }) ∧
    ((processSingleVideo candX cfg2 { envOk with preflight := .ok livePre } "t0" []).1 =
        { status := "failed", reason := some "live stream" } ∧
      (processSingleVideo candX cfg2 { envOk with preflight := .ok livePre } "t0" []).2.2 =
        ["preflight"] ∧
      "download" ∉
        (processSingleVideo candX cfg2 { envOk with preflight := .ok livePre } "t0" []).2.2 ∧
      ∃ r, lookupJob
            (processSingleVideo candX cfg2 { envOk with preflight := .ok livePre } "t0" []).2.1
            candX.videoId = some r ∧
        r.status = "failed" ∧ r.attempts = 1 ∧
        r.last_error = some ("preflight: " ++ "live stream")) :=
  ⟨⟨rfl, rfl, by decide⟩,
    policy_rejection_immediate_failure candX cfg2 { envOk with preflight := .ok livePre }
      "t0" [] livePre "live stream" rfl rfl (by decide)⟩

/-! ### C9 -/

/-- C9: a thumbnail-normalization failure is caught inside
`processSingleVideo` — the entire outcome (result, final store, stage trace)
is independent of the thumbnail collaborator's outcome, so the pipeline
continues to ASR and `status`/`attempts`/`last_error` are untouched by that
failure — and thumbnail normalization is the only stage with this property:
on the otherwise-ok environment, a failure injected into any other stage makes
the run fail while a thumbnail failure still succeeds. -/
theorem thumbnail_only_nonfatal :
    (∀ (cand : Candidate) (config : AppConfig) (env : StageEnv) (now : String)
        (store : JobStore) (t t' : Except String String),
        processSingleVideo cand config { env with normalizeThumbnail := t } now store =
          processSingleVideo cand config { env with normalizeThumbnail := t' } now store) ∧
    (processSingleVideo candX cfg2 { envOk with normalizeThumbnail := .error "e" }
        "t0" []).1.status = "succeeded" ∧
    (processSingleVideo candX cfg2 { envOk with preflight := .error "e" } "t0" []).1.status
        = "failed" ∧
    (processSingleVideo candX cfg2 { envOk with download := .error "e" } "t0" []).1.status
        = "failed" ∧
    (processSingleVideo candX cfg2 { envOk with extractAudio := .error "e" } "t0" []).1.status
        = "failed" ∧
    (processSingleVideo candX cfg2 { envOk with runAsr := .error "e" } "t0" []).1.status
        = "failed" ∧
    (processSingleVideo candX cfg2 { envOk with runTranslation := .error "e" } "t0" []).1.status
        = "failed" ∧
    (processSingleVideo candX cfg2 { envOk with burnSubtitles := .error "e" } "t0" []).1.status
        = "failed" ∧
    (processSingleVideo candX cfg2 { envOk with normalizeLoudness := .error "e" }
        "t0" []).1.status = "failed" ∧
    (processSingleVideo candX cfg2 { envOk with probeVideo := .error "e" } "t0" []).1.status
        = "failed" ∧
    (processSingleVideo candX cfg2 { envOk with probeVideo := .ok ⟨true, false, 100⟩ }
        "t0" []).1.status = "failed" ∧
    (processSingleVideo candX cfg2 { envOk with runMetadataGeneration := .error "e" }
        "t0" []).1.status = "failed" ∧
    (processSingleVideo candX cfg2 { envOk with deliverJob := .error "e" } "t0" []).1.status
        = "failed" :=
  ⟨fun _ _ env _ _ _ _ => by cases env; rfl, by decide⟩

/-! ### Selector lemmas -/

/-- The selection loop is "keep the fresh entries, cap the batch". -/
theorem selectLoop_eq (store : JobStore) (maxPerRun : Nat) :
    ∀ (entries : List FeedEntry) (acc : List Candidate),
      selectLoop store maxPerRun acc entries =
        acc ++ (((entries.filter fun e => !jobExists store e.video_id).take
          (maxPerRun - acc.length)).map toCandidate) := by
  intro entries
  induction entries with
  | nil => intro acc; simp [selectLoop]
  | cons e rest ih =>
      intro acc
      by_cases hfull : maxPerRun ≤ acc.length
      · have h0 : maxPerRun - acc.length = 0 := Nat.sub_eq_zero_of_le hfull
        simp [selectLoop, hfull, h0]
      · by_cases hex : jobExists store e.video_id
        · simp [selectLoop, hfull, hex, ih]
        · have h1 : maxPerRun - acc.length = (maxPerRun - (acc.length + 1)) + 1 := by omega
          simp only [selectLoop, if_neg hfull, hex, ih, List.filter_cons]
          simp only [Bool.not_eq_true] at hex
          simp [hex, h1, List.take_succ_cons]

theorem fetchAndFilterCandidates_eq (config : AppConfig)
    (feeds : List (Except String (List FeedEntry))) (store : JobStore) :
    fetchAndFilterCandidates config feeds store =
      ((((List.insertionSort feedGE (mergedEntries feeds)).filter
          fun e => !jobExists store e.video_id).take config.max_videos_per_run).map
        toCandidate) := by
  unfold fetchAndFilterCandidates
  dsimp only
  rw [selectLoop_eq]
  simp

/-- Stability of the insertion at one tie class: filtering a tie class out of
`orderedInsert feedGE a l` keeps `a` in front of the class's elements of `l`
exactly when `a` belongs to the class (everything `a` is inserted behind is
strictly newer). -/
theorem filter_time_orderedInsert (t : Int) (a : FeedEntry) (l : List FeedEntry) :
    (l.orderedInsert feedGE a).filter (fun e => e.published_at == t) =
      if a.published_at == t then a :: l.filter (fun e => e.published_at == t)
      else l.filter (fun e => e.published_at == t) := by
  induction l with
  | nil => simp [List.orderedInsert, List.filter_cons]
  | cons b l ih =>
      by_cases hr : feedGE a b
      · simp [List.orderedInsert, if_pos hr, List.filter_cons]
      · have hab : a.published_at < b.published_at := lt_of_not_le hr
        simp only [List.orderedInsert, if_neg hr, List.filter_cons, ih]
        by_cases hpa : a.published_at == t
        · have hbt : (b.published_at == t) = false := by
            have ha : a.published_at = t := by simpa using hpa
            simp only [beq_eq_false_iff_ne, ne_eq]
            omega
          simp [hpa, hbt]
        · simp [hpa]

/-- Stability of the selector's sort: each tie class (entries with equal
`published_at`) comes out of the stable sort in merge order. -/
theorem filter_time_insertionSort (t : Int) (l : List FeedEntry) :
    (List.insertionSort feedGE l).filter (fun e => e.published_at == t) =
      l.filter (fun e => e.published_at == t) := by
  induction l with
  | nil => rfl
  | cons a l ih =>
      simp [List.insertionSort, filter_time_orderedInsert, ih, List.filter_cons]

/-- Every selected candidate is fresh: its id has no record in the store. -/
theorem mem_fetchAndFilterCandidates_fresh (config : AppConfig)
    (feeds : List (Except String (List FeedEntry))) (store : JobStore) (c : Candidate)
    (hc : c ∈ fetchAndFilterCandidates config feeds store) :
    lookupJob store c.videoId = none := by
  rw [fetchAndFilterCandidates_eq] at hc
  obtain ⟨e, he, rfl⟩ := List.mem_map.mp hc
  have he2 := List.mem_of_mem_take he
  have he3 := (List.mem_filter.mp he2).2
  have he4 : jobExists store e.video_id = false := by simpa using he3
  unfold jobExists at he4
  show lookupJob store e.video_id = none
  cases hl : lookupJob store e.video_id with
  | none => rfl
  | some j => rw [hl] at he4; cases he4

/-- The run loop invokes the stage runner exactly on the candidate ids, in
order. -/
theorem runLoop_ids (config : AppConfig) (envs : Nat → StageEnv) (now : String) :
    ∀ (cs : List Candidate) (store : JobStore) (i : Nat),
      (runLoop config envs now cs store i).2.1 = cs.map Candidate.videoId := by
  intro cs
  induction cs with
  | nil => intro store i; rfl
  | cons c rest ih => intro store i; simp [runLoop, ih]

/-! ### C5 -/

def eA1 : FeedEntry := ⟨"a1", "chA", "https://example.com/watch?v=a1", 1⟩
def eA3 : FeedEntry := ⟨"a3", "chA", "https://example.com/watch?v=a3", 3⟩
def eB2 : FeedEntry := ⟨"b2", "chB", "https://example.com/watch?v=b2", 2⟩

/-- C5: the selector returns the merged entries sorted by `published_at`
descending, with the stable tie-break (each tie class appears in merge order),
only ids with no record, and at most `max_videos_per_run` candidates; on
source A `[t1, t3]` and source B `[t2]` with `t1 < t2 < t3` and
`max_per_run = 2` it returns `[t3, t2]` in that order. -/
theorem selector_merge_order :
    (∀ (config : AppConfig) (feeds : List (Except String (List FeedEntry)))
        (store : JobStore),
        (fetchAndFilterCandidates config feeds store).length ≤ config.max_videos_per_run) ∧
    (∀ (config : AppConfig) (feeds : List (Except String (List FeedEntry)))
        (store : JobStore) (c : Candidate),
        c ∈ fetchAndFilterCandidates config feeds store →
        lookupJob store c.videoId = none) ∧
    (∀ (config : AppConfig) (feeds : List (Except String (List FeedEntry)))
        (store : JobStore),
        (fetchAndFilterCandidates config feeds store).Pairwise
          (fun a b => b.publishedAt ≤ a.publishedAt)) ∧
    (∀ (config : AppConfig) (feeds : List (Except String (List FeedEntry)))
        (store : JobStore) (t : Int),
        List.Sublist
          ((fetchAndFilterCandidates config feeds store).filter
            (fun c => c.publishedAt == t))
          (((mergedEntries feeds).filter (fun e => e.published_at == t)).map toCandidate)) ∧
    fetchAndFilterCandidates cfg2 [.ok [eA1, eA3], .ok [eB2]] [] =
      [toCandidate eA3, toCandidate eB2] := by
  refine ⟨fun config feeds store => ?_, fun config feeds store c hc =>
    mem_fetchAndFilterCandidates_fresh config feeds store c hc,
    fun config feeds store => ?_, fun config feeds store t => ?_, by decide⟩
  · rw [fetchAndFilterCandidates_eq]
    simp [List.length_take]
  · rw [fetchAndFilterCandidates_eq]
    have hs : List.Sorted feedGE (List.insertionSort feedGE (mergedEntries feeds)) :=
      List.sorted_insertionSort feedGE (mergedEntries feeds)
    have hp : (((List.insertionSort feedGE (mergedEntries feeds)).filter
        (fun e => !jobExists store e.video_id)).take config.max_videos_per_run).Pairwise
          feedGE :=
      List.Pairwise.sublist ((List.take_sublist _ _).trans (List.filter_sublist _)) hs
    exact (List.pairwise_map).mpr (hp.imp fun h => h)
  · rw [fetchAndFilterCandidates_eq, List.map_filter]
    have h1 : List.Sublist
        ((((List.insertionSort feedGE (mergedEntries feeds)).filter
          (fun e => !jobExists store e.video_id)).take config.max_videos_per_run).filter
            ((fun c : Candidate => c.publishedAt == t) ∘ toCandidate))
        ((List.insertionSort feedGE (mergedEntries feeds)).filter
          ((fun c : Candidate => c.publishedAt == t) ∘ toCandidate)) :=
      List.Sublist.filter _ ((List.take_sublist _ _).trans (List.filter_sublist _))
    have h2 : ((List.insertionSort feedGE (mergedEntries feeds)).filter
        ((fun c : Candidate => c.publishedAt == t) ∘ toCandidate)) =
        ((mergedEntries feeds).filter (fun e => e.published_at == t)) := by
      exact filter_time_insertionSort t (mergedEntries feeds)
    rw [h2] at h1
    exact h1.map toCandidate

theorem selector_merge_order_witness :
    (toCandidate eA3 ∈ fetchAndFilterCandidates cfg2 [.ok [eA1, eA3], .ok [eB2]] []) ∧
    lookupJob [] (toCandidate eA3).videoId = none :=
  ⟨by decide,
    selector_merge_order.2.1 cfg2 [.ok [eA1, eA3], .ok [eB2]] [] (toCandidate eA3) (by decide)⟩

/-! ### C2 (amended) -/

/-- C2 amended: `runOnce` has no direct-lookup path — it never invokes the
Stage Runner for an id that already has a record (of any status, `pending`
included), because processing is driven solely by the selector, which excludes
every such id. What does hold of the entry logic: whenever
`processSingleVideo` is invoked for an id whose record is `pending`, it does
not skip and restarts the pipeline at the first stage (its first collaborator
call is the preflight). -/
theorem pending_reprocessing_amended :
    (∀ (config : AppConfig) (feeds : List (Except String (List FeedEntry)))
        (envs : Nat → StageEnv) (now : String) (store : JobStore) (id : String) (j : Job),
        lookupJob store id = some j →
        id ∉ (runOnce config feeds envs now store).2.1) ∧
    (∀ (cand : Candidate) (config : AppConfig) (env : StageEnv) (now : String)
        (store : JobStore) (j : Job),
        lookupJob store cand.videoId = some j → j.status = "pending" →
        (processSingleVideo cand config env now store).2.2.head? = some "preflight" ∧
        (processSingleVideo cand config env now store).1.status ≠ "skipped") := by
  constructor
  · intro config feeds envs now store id j hj hmem
    unfold runOnce at hmem
    rw [runLoop_ids] at hmem
    obtain ⟨c, hc, hcid⟩ := List.mem_map.mp hmem
    have := mem_fetchAndFilterCandidates_fresh config feeds store c hc
    rw [hcid, hj] at this
    cases this
  · intro cand config env now store j hj hpend
    have hcalls := tryBody_calls_head cand.videoId config env now store j
    unfold processSingleVideo
    dsimp only
    rw [hj]
    dsimp only
    rw [if_neg (by rw [hpend]; decide), if_neg (by rw [hpend]; decide)]
    cases htb : tryBody cand.videoId config env now store j with
    | success j' st' calls' =>
        rw [htb] at hcalls
        simp only [callsOf] at hcalls
        refine ⟨hcalls, ?_⟩
        dsimp only
        decide
    | policyReject r j' st' calls' =>
        rw [htb] at hcalls
        simp only [callsOf] at hcalls
        refine ⟨hcalls, ?_⟩
        dsimp only
        decide
    | thrown msg j' st' calls' =>
        rw [htb] at hcalls
        simp only [callsOf] at hcalls
        refine ⟨hcalls, ?_⟩
        dsimp only
        decide

theorem pending_reprocessing_amended_witness :
    lookupJob [("v1", pendingJobV1)] "v1" = some pendingJobV1 ∧
    "v1" ∉ (runOnce cfg2 [.ok [⟨"v1", "c1", "https://example.com/watch?v=v1", 7⟩]]
      (fun _ => envOk) "t1" [("v1", pendingJobV1)]).2.1 :=
  ⟨rfl,
    pending_reprocessing_amended.1 cfg2
      [.ok [⟨"v1", "c1", "https://example.com/watch?v=v1", 7⟩]] (fun _ => envOk) "t1"
      [("v1", pendingJobV1)] "v1" pendingJobV1 rfl⟩

/-! ### C3 -/

/-- C3: when processing of a fresh or `pending` item reaches the top-level
`catch` (any stage failure other than a preflight policy rejection and the
swallowed thumbnail failure), the saved record's `attempts` is exactly the
previous value plus one (so `attempts` never decreases), `last_error` is the
failure message, and the record is `failed` when the incremented `attempts`
has reached `retries_max` and still `pending` otherwise. -/
theorem general_failure_retry_bookkeeping
    (cand : Candidate) (config : AppConfig) (env : StageEnv) (now : String)
    (store : JobStore) (msg : String) (jt : Job) (st : JobStore) (calls : List String)
    (hentry : lookupJob store cand.videoId = none ∨
      ∃ j, lookupJob store cand.videoId = some j ∧ j.status = "pending")
    (hthrown : tryBody cand.videoId config env now
        (match lookupJob store cand.videoId with
          | some _ => store
          | none => saveJob store cand.videoId
              (createJob cand.videoId cand.channelId cand.sourceUrl now))
        (match lookupJob store cand.videoId with
          | some j => j
          | none => createJob cand.videoId cand.channelId cand.sourceUrl now) =
      .thrown msg jt st calls) :
    (processSingleVideo cand config env now store).1 =
      { status := "failed", reason := some msg } ∧
    ∃ r, lookupJob (processSingleVideo cand config env now store).2.1 cand.videoId = some r ∧
      r.attempts =
        (match lookupJob store cand.videoId with
          | some j => j.attempts
          | none => 0) + 1 ∧
      r.last_error = some msg ∧
      (config.retries_max ≤ r.attempts → r.status = "failed") ∧
      (r.attempts < config.retries_max → r.status = "pending") := by
  have hinv := tryBody_thrown_inv _ _ _ _ _ _ _ _ _ _ hthrown
  rcases hentry with habs | ⟨j, hj, hpend⟩
  · rw [habs] at hthrown hinv ⊢
    unfold processSingleVideo
    dsimp only
    rw [habs]
    dsimp only
    rw [hthrown]
    dsimp only
    by_cases hc : config.retries_max ≤ (incrementAttempts jt msg now).attempts
    · rw [if_pos hc]
      simp only [incrementAttempts] at hc
      refine ⟨rfl, _, lookupJob_saveJob_self _ _ _, ?_, ?_, ?_, ?_⟩
      · simp [markFailed, incrementAttempts, hinv.1, createJob]
      · simp [markFailed, incrementAttempts]
      · intro _
        simp [markFailed]
      · intro hlt
        exfalso
        simp only [markFailed, incrementAttempts] at hlt
        omega
    · rw [if_neg hc]
      simp only [incrementAttempts] at hc
      refine ⟨rfl, _, lookupJob_saveJob_self _ _ _, ?_, ?_, ?_, ?_⟩
      · simp [incrementAttempts, hinv.1, createJob]
      · simp [incrementAttempts]
      · intro hge
        exfalso
        simp only [incrementAttempts] at hge
        omega
      · intro _
        simp [incrementAttempts, hinv.2.1, createJob]
  · rw [hj] at hthrown hinv ⊢
    unfold processSingleVideo
    dsimp only
    rw [hj]
    dsimp only
    rw [if_neg (by rw [hpend]; decide), if_neg (by rw [hpend]; decide)]
    rw [hthrown]
    dsimp only
    by_cases hc : config.retries_max ≤ (incrementAttempts jt msg now).attempts
    · rw [if_pos hc]
      simp only [incrementAttempts] at hc
      refine ⟨rfl, _, lookupJob_saveJob_self _ _ _, ?_, ?_, ?_, ?_⟩
      · simp [markFailed, incrementAttempts, hinv.1]
      · simp [markFailed, incrementAttempts]
      · intro _
        simp [markFailed]
      · intro hlt
        exfalso
        simp only [markFailed, incrementAttempts] at hlt
        omega
    · rw [if_neg hc]
      simp only [incrementAttempts] at hc
      refine ⟨rfl, _, lookupJob_saveJob_self _ _ _, ?_, ?_, ?_, ?_⟩
      · simp [incrementAttempts, hinv.1]
      · simp [incrementAttempts]
      · intro hge
        exfalso
        simp only [incrementAttempts] at hge
        omega
      · intro _
        simp [incrementAttempts, hinv.2.1, hpend]

def envPreThrow : StageEnv := { envOk with preflight := .error "boom" }

def jobX0 : Job := createJob "x" "chX" "https://example.com/watch?v=x" "t0"

def jtX : Job := updateStep jobX0 "preflight" "t0"

def stX : JobStore := saveJob (saveJob [] "x" jobX0) "x" jtX

theorem general_failure_retry_bookkeeping_witness :
    ((lookupJob [] candX.videoId = none ∨
        ∃ j, lookupJob [] candX.videoId = some j ∧ j.status = "pending") ∧
      tryBody candX.videoId cfg2 envPreThrow "t0"
          (match lookupJob [] candX.videoId with
            | some _ => ([] : JobStore)
            | none => saveJob [] candX.videoId
                (createJob candX.videoId candX.channelId candX.sourceUrl "t0"))
          (match lookupJob [] candX.videoId with
            | some j => j
            | none => createJob candX.videoId candX.channelId candX.sourceUrl "t0") =
        .thrown "boom" jtX stX ["preflight"]) ∧
    ((processSingleVideo candX cfg2 envPreThrow "t0" []).1 =
        { status := "failed", reason := some "boom" } ∧
      ∃ r, lookupJob (processSingleVideo candX cfg2 envPreThrow "t0" []).2.1 candX.videoId =
          some r ∧
        r.attempts =
          (match lookupJob [] candX.videoId with
            | some j => j.attempts
            | none => 0) + 1 ∧
        r.last_error = some "boom" ∧
        (cfg2.retries_max ≤ r.attempts → r.status = "failed") ∧
        (r.attempts < cfg2.retries_max → r.status = "pending")) :=
  ⟨⟨Or.inl rfl, by decide⟩,
    general_failure_retry_bookkeeping candX cfg2 envPreThrow "t0" [] "boom" jtX stX
      ["preflight"] (Or.inl rfl) (by decide)⟩

end AutoRelocate
